import Mathlib

/-!
Verification of the multi-agent code development workflow
(`multi_agent_workflow.py`): a shallow embedding of the
`CodeDevelopmentWorkflow` class — its constructor, the artifact-extraction
helpers `_extract_code_from_messages` / `_extract_review_from_messages`,
and the round-robin conversation loop it delegates to the external
`autogen_agentchat` library — together with theorems about them.

Python dictionaries representing conversation messages are embedded as a
structure with optional fields (a missing key is `none`); Python strings
are Lean `String`s, manipulated as `List Char` where character-level
scanning is needed.  Wall-clock timing (`execution_time`) and the float
`temperature` parameter are not modelled.
-/

/-- A conversation message, as handled by the extraction helpers: a Python
dict whose `source` and `content` keys may each be absent (`none`). -/
structure Msg where
  source : Option String
  content : Option String
deriving DecidableEq, Repr

/-- The sentinel phrase configured in `TextMentionTermination` at
`multi_agent_workflow.py` line 87. -/
def SENTINEL : String := "WORKFLOW_COMPLETE"

/-- The agent names, in the order they are passed to `RoundRobinGroupChat`
(`participants=[self.code_writer, self.code_reviewer, self.code_optimizer]`,
lines 198-200), with the names given in `_create_agents`. -/
def workflowAgents : List String := ["CodeWriter", "CodeReviewer", "CodeOptimizer"]

/-- Substring test on character lists: Python's `pat in s`, case-sensitive. -/
def listContains (pat : List Char) : List Char → Bool
  | [] => decide (pat = [])
  | c :: rest => pat.isPrefixOf (c :: rest) || listContains pat rest

/-- Substring test on strings (case-sensitive), modelling Python `in`. -/
def strContains (s pat : String) : Bool := listContains pat.toList s.toList

/-! ### The fenced-code-block regex

`_extract_code_from_messages` matches `content` against the Python regex
`r'```(?:python)?\n(.*?)\n```'` with `re.DOTALL`, via `re.findall`:
leftmost, non-overlapping matches; the optional group `(?:python)?` is
tried greedily; the body `(.*?)` is lazy, so it ends at the first
`"\n```"` after the opening marker's newline.  The scanner below
implements exactly that semantics on `List Char`. -/

/-- The closing delimiter `"\n```"` of the regex. -/
def closeMark : List Char := ['\n', '`', '`', '`']

/-- The opening delimiter `"```"` of the regex. -/
def ticks : List Char := ['`', '`', '`']

/-- The greedy optional tag of the regex together with the mandatory
newline that follows it: `"python\n"`. -/
def pythonTag : List Char := ['p', 'y', 't', 'h', 'o', 'n', '\n']

/-- Lazy body search: splits the input at the first occurrence of
`"\n```"`, returning the body before it and the remainder after the whole
closing marker; `none` when no closing marker occurs. -/
def findClose : List Char → Option (List Char × List Char)
  | [] => none
  | c :: rest =>
    if closeMark.isPrefixOf (c :: rest) then some ([], rest.drop 3)
    else
      match findClose rest with
      | some (body, tail) => some (c :: body, tail)
      | none => none

/-- Attempts the opening of the regex at the current position: the literal
three backticks, then — greedily, as the regex engine does — the optional
`python` tag, then the mandatory newline.  Returns the suffix after that
newline, where the lazy body starts. -/
def openAfter (s : List Char) : Option (List Char) :=
  if ticks.isPrefixOf s then
    if pythonTag.isPrefixOf (s.drop 3) then some ((s.drop 3).drop 7)
    else
      match s.drop 3 with
      | '\n' :: t => some t
      | _ => none
  else none

/-- Fuelled scan implementing `re.findall` for the code-block pattern:
advance one character on a failed opening; after a successful match resume
after the closing marker; when an opening succeeds but no closing
`"\n```"` follows, no further match is possible (any later match's closing
marker would lie in the same suffix), so the scan ends. -/
def scanAux : Nat → List Char → List (List Char)
  | 0, _ => []
  | _ + 1, [] => []
  | fuel + 1, c :: rest =>
    match openAfter (c :: rest) with
    | some afterNl =>
      match findClose afterNl with
      | some (body, tail) => body :: scanAux fuel tail
      | none => []
    | none => scanAux fuel rest

/-- All bodies matched by `re.findall(r'```(?:python)?\n(.*?)\n```', content,
re.DOTALL)` at line 262, in order. -/
def findCodeBlocks (content : String) : List String :=
  (scanAux content.toList.length content.toList).map fun l => String.mk l

/-! ### The extraction helpers (lines 253-276) -/

/-- The `for message in messages` loop of `_extract_code_from_messages`:
for each message whose `source` equals `agent_name`, `code_blocks` is
extended with the regex matches found in its `content` (missing `content`
defaults to `''`; a message with no `source` key is skipped since
`None == agent_name` is false). -/
def extractCodeLoop (agent_name : String) : List Msg → List String → List String
  | [], code_blocks => code_blocks
  | m :: rest, code_blocks =>
    if m.source = some agent_name then
      extractCodeLoop agent_name rest (code_blocks ++ findCodeBlocks (m.content.getD ""))
    else
      extractCodeLoop agent_name rest code_blocks

/-- `CodeDevelopmentWorkflow._extract_code_from_messages` (lines 253-265):
`'\n\n'.join(code_blocks) if code_blocks else "No code found"`. -/
def extract_code_from_messages (messages : List Msg) (agent_name : String) : String :=
  let code_blocks := extractCodeLoop agent_name messages []
  if code_blocks.isEmpty then "No code found"
  else String.intercalate "\n\n" code_blocks

/-- The `for message in messages` loop of `_extract_review_from_messages`:
appends the full `content` of each message whose `source` equals
`agent_name` (missing `content` defaults to `''`). -/
def extractReviewLoop (agent_name : String) : List Msg → List String → List String
  | [], reviews => reviews
  | m :: rest, reviews =>
    if m.source = some agent_name then
      extractReviewLoop agent_name rest (reviews ++ [m.content.getD ""])
    else
      extractReviewLoop agent_name rest reviews

/-- `CodeDevelopmentWorkflow._extract_review_from_messages` (lines 267-276):
`'\n\n'.join(reviews) if reviews else "No review found"`. -/
def extract_review_from_messages (messages : List Msg) (agent_name : String) : String :=
  let reviews := extractReviewLoop agent_name messages []
  if reviews.isEmpty then "No review found"
  else String.intercalate "\n\n" reviews

/-- State-passing form of `_extract_code_from_messages`: the Python method
receives the `messages` list by reference and performs only reads on it
(`message.get`), never an assignment, so its state-passing translation
returns the extracted string together with the untouched list. -/
def extract_code_run (messages : List Msg) (agent_name : String) : String × List Msg :=
  (extract_code_from_messages messages agent_name, messages)

/-- State-passing form of `_extract_review_from_messages`; like
`extract_code_run`, the source performs no write to `messages`. -/
def extract_review_run (messages : List Msg) (agent_name : String) : String × List Msg :=
  (extract_review_from_messages messages agent_name, messages)

/-! ### The constructor (`__init__`, lines 49-88) -/

/-- The only exception the constructor itself raises: Python `ValueError`
with its message (line 73). -/
inductive InitError where
  | valueError (msg : String)
deriving DecidableEq, Repr

/-- The exact message of the `ValueError` at line 73. -/
def apiKeyErrorMsg : String :=
  "OpenAI API key must be provided via parameter or OPENAI_API_KEY environment variable"

/-- The workflow object as configured by `__init__`: the stored fields, the
resulting `OPENAI_API_KEY` environment value, the agent names created by
`_create_agents`, and the two termination-condition parameters
(`MaxMessageTermination(max_messages=self.max_rounds)` and
`TextMentionTermination("WORKFLOW_COMPLETE")`, lines 85-88).  The float
`temperature` and the model client object are not modelled. -/
structure Workflow where
  model : String
  max_rounds : Int
  env_openai_api_key : Option String
  agent_names : List String
  term_max_messages : Int
  term_sentinel : String
deriving DecidableEq, Repr

/-- Python truthiness of an optional string: `None` and `''` are falsy. -/
def pyTruthy : Option String → Bool
  | none => false
  | some s => if s = "" then false else true

/-- `CodeDevelopmentWorkflow.__init__` (lines 49-88).  `api_key` is the
parameter (default `None`); `env` is the value of the `OPENAI_API_KEY`
environment variable at entry (`none` when unset).  `if api_key:` writes
the key into the environment; `elif not os.getenv("OPENAI_API_KEY"):`
raises `ValueError`; otherwise construction proceeds — agents and the
termination condition are created only after the key check, and no
validation of `max_rounds` (or of the hard-coded agent list) is performed
anywhere. -/
def workflow_init (model : String) (max_rounds : Int) (api_key : Option String)
    (env : Option String) : Except InitError Workflow :=
  if pyTruthy api_key then
    Except.ok ⟨model, max_rounds, api_key, workflowAgents, max_rounds, SENTINEL⟩
  else if pyTruthy env then
    Except.ok ⟨model, max_rounds, env, workflowAgents, max_rounds, SENTINEL⟩
  else
    Except.error (InitError.valueError apiKeyErrorMsg)

/-! ### The round-robin conversation loop

`CodeDevelopmentWorkflow.run` delegates the turn loop to
`RoundRobinGroupChat` with the termination condition
`MaxMessageTermination(max_rounds) | TextMentionTermination(sentinel)`;
that loop lives in the external `autogen_agentchat` library, not in this
repository. -/

/-- The agent selected for 0-based turn counter `i`: strict rotation over
the configured list. -/
def agentAt (agents : List String) (i : Nat) : String :=
  agents.getD (i % agents.length) ""

/-- Modelled from the spec: the Round-Robin Scheduler turn loop, which in
the source is `RoundRobinGroupChat.run` of the external
`autogen_agentchat` library.  Per the spec: each turn selects the next
agent in rotation, asks the Completion Client (`client`) for a completion
over the transcript so far, appends the produced message, increments the
turn counter, and then evaluates the OR of Max-Turns (`turnCount >= limit`,
one increment per produced message) and Sentinel-Match (the configured
substring occurs, case-sensitively, in the most recently appended message
only); on a `GenerationFailure` the loop stops at once and surfaces the
failure with the partial list of produced messages.  `fuel` is the number
of turns still allowed before Max-Turns fires; the returned list holds the
produced messages (the seed excluded) and the returned option the failure,
if any. -/
def runTurns {ε : Type} (client : String → List Msg → Except ε String)
    (agents : List String) (sentinel : String) :
    Nat → Nat → List Msg → List Msg × Option ε
  | 0, _, _ => ([], none)
  | fuel + 1, i, transcript =>
    match client (agentAt agents i) transcript with
    | Except.error e => ([], some e)
    | Except.ok text =>
      if strContains text sentinel then ([⟨some (agentAt agents i), some text⟩], none)
      else
        let r := runTurns client agents sentinel fuel (i + 1)
          (transcript ++ [⟨some (agentAt agents i), some text⟩])
        (⟨some (agentAt agents i), some text⟩ :: r.1, r.2)

/-- The seed message carrying the task text, appended by the scheduler
when the run starts. -/
def seedMsg (task : String) : Msg := ⟨some "user", some task⟩

/-- Modelled from the spec: one full scheduler run as configured by
`CodeDevelopmentWorkflow.run` — the three agents in round-robin order, the
`"WORKFLOW_COMPLETE"` sentinel, at most `maxRounds` produced messages, the
transcript seeded with the task message. -/
def schedulerRun {ε : Type} (client : String → List Msg → Except ε String)
    (maxRounds : Nat) (task : String) : List Msg × Option ε :=
  runTurns client workflowAgents SENTINEL maxRounds 0 [seedMsg task]

/-- The result container `WorkflowResult` (lines 27-36), without the
unmodelled wall-clock `execution_time` and `token_usage` fields. -/
structure WorkflowResult where
  original_task : String
  initial_code : String
  review_feedback : String
  final_code : String
  conversation_history : List Msg
deriving DecidableEq, Repr

/-- `CodeDevelopmentWorkflow.run` (lines 178-251): runs the team, then — on
success only — builds the `WorkflowResult` from the three extractions over
the conversation history; the `except Exception as e: ... raise` at lines
248-251 re-raises any failure unchanged, so a scheduler failure is
propagated verbatim and no `WorkflowResult` is constructed. -/
def workflow_run {ε : Type} (client : String → List Msg → Except ε String)
    (maxRounds : Nat) (task : String) : Except ε WorkflowResult :=
  match (schedulerRun client maxRounds task).2 with
  | some e => Except.error e
  | none =>
    Except.ok
      { original_task := task
        initial_code := extract_code_from_messages
          (seedMsg task :: (schedulerRun client maxRounds task).1) "CodeWriter"
        review_feedback := extract_review_from_messages
          (seedMsg task :: (schedulerRun client maxRounds task).1) "CodeReviewer"
        final_code := extract_code_from_messages
          (seedMsg task :: (schedulerRun client maxRounds task).1) "CodeOptimizer"
        conversation_history := seedMsg task :: (schedulerRun client maxRounds task).1 }

/-! ### Spec-side definition for claim C4

The claim describes fenced regions whose opening marker may carry *any*
language tag; the following definitions follow the claim's words (not the
source) so the two behaviours can be compared. -/

/-- Drops everything up to and including the first newline: the claim's
"optionally annotated with any language tag" opening, where the tag is
whatever stands between the backticks and the end of the line. -/
def afterNewline : List Char → Option (List Char)
  | [] => none
  | '\n' :: t => some t
  | _ :: t => afterNewline t

/-- Scanner that follows the claim's words: an opening triple-backtick
marker annotated with any (possibly empty) language tag running to the end
of its line, then a body closed by the next newline-preceded
triple-backtick marker. -/
def scanAuxAnyTag : Nat → List Char → List (List Char)
  | 0, _ => []
  | _ + 1, [] => []
  | fuel + 1, c :: rest =>
    match (if ticks.isPrefixOf (c :: rest) then afterNewline ((c :: rest).drop 3) else none) with
    | some afterNl =>
      match findClose afterNl with
      | some (body, tail) => body :: scanAuxAnyTag fuel tail
      | none => []
    | none => scanAuxAnyTag fuel rest

/-- The fenced bodies of `content` under the claim's any-language-tag
reading. -/
def specFencedBodiesAnyTag (content : String) : List String :=
  (scanAuxAnyTag content.toList.length content.toList).map fun l => String.mk l

/-- The extraction claim C4 describes, with any-language-tag fenced
regions: concatenation in transcript order, blank-line separator, sentinel
result when nothing was found. -/
def specExtractCodeAnyTag (messages : List Msg) (agent_name : String) : String :=
  let bodies := (messages.filter fun m => decide (m.source = some agent_name)).flatMap
    fun m => specFencedBodiesAnyTag (m.content.getD "")
  if bodies.isEmpty then "No code found"
  else String.intercalate "\n\n" bodies

/-! ## Helper lemmas -/

/-- The accumulator loop of `_extract_code_from_messages` computes the
blocks of the matching messages, in transcript order, appended to the
accumulator. -/
theorem extractCodeLoop_eq (a : String) (ms : List Msg) (acc : List String) :
    extractCodeLoop a ms acc =
      acc ++ (ms.filter fun m => decide (m.source = some a)).flatMap
        (fun m => findCodeBlocks (m.content.getD "")) := by
  induction ms generalizing acc with
  | nil => simp [extractCodeLoop]
  | cons m rest ih =>
    by_cases h : m.source = some a <;>
      simp [extractCodeLoop, h, ih, List.filter_cons]

/-- The accumulator loop of `_extract_review_from_messages` computes the
contents of the matching messages, in transcript order, appended to the
accumulator. -/
theorem extractReviewLoop_eq (a : String) (ms : List Msg) (acc : List String) :
    extractReviewLoop a ms acc =
      acc ++ (ms.filter fun m => decide (m.source = some a)).map
        (fun m => m.content.getD "") := by
  induction ms generalizing acc with
  | nil => simp [extractReviewLoop]
  | cons m rest ih =>
    by_cases h : m.source = some a <;>
      simp [extractReviewLoop, h, ih, List.filter_cons]

/-- Characterization of `_extract_code_from_messages`: the blank-line join
of the regex matches over the agent's messages in transcript order, or the
sentinel string when none matched. -/
theorem extract_code_eq (ms : List Msg) (a : String) :
    extract_code_from_messages ms a =
      (if ((ms.filter fun m => decide (m.source = some a)).flatMap
            (fun m => findCodeBlocks (m.content.getD ""))).isEmpty
       then "No code found"
       else String.intercalate "\n\n"
        ((ms.filter fun m => decide (m.source = some a)).flatMap
          (fun m => findCodeBlocks (m.content.getD "")))) := by
  unfold extract_code_from_messages
  rw [extractCodeLoop_eq]
  simp

/-- Characterization of `_extract_review_from_messages`: the blank-line
join of the full contents of the agent's messages in transcript order, or
the sentinel string when the agent has no message. -/
theorem extract_review_eq (ms : List Msg) (a : String) :
    extract_review_from_messages ms a =
      (if ((ms.filter fun m => decide (m.source = some a)) = [])
       then "No review found"
       else String.intercalate "\n\n"
        ((ms.filter fun m => decide (m.source = some a)).map
          (fun m => m.content.getD ""))) := by
  unfold extract_review_from_messages
  rw [extractReviewLoop_eq]
  cases h : ms.filter fun m => decide (m.source = some a) <;> simp [h]

/-! ## Claim theorems: artifact extraction -/

/-- Claim C4 counterexample: the claim as stated admits fenced regions
annotated with any language tag, but the regex at line 262 accepts only an
absent tag or the exact tag `python`.  On a message holding a `js`-tagged
fenced region with body `x = 1`, the code returns the sentinel
`"No code found"`, while the claim's any-tag reading extracts `"x = 1"`. -/
theorem claim_C4_counterexample :
    extract_code_from_messages [⟨some "A", some "```js\nx = 1\n```"⟩] "A" = "No code found" ∧
    specExtractCodeAnyTag [⟨some "A", some "```js\nx = 1\n```"⟩] "A" = "x = 1" := by
  constructor <;> rfl

/-- Claim C4 (amended): for every finished transcript and every agent
name, `_extract_code_from_messages` returns the concatenation, in
transcript order and separated by a blank line, of the bodies of every
fenced code region that opens with triple backticks annotated with either
no language tag or exactly the tag `python` followed by a newline, and
closes at the next triple-backtick marker preceded by a newline, found in
messages whose source equals the agent name; if no message matched or no
such fenced region was found it returns the sentinel value
`"No code found"` rather than an empty string. -/
theorem claim_C4_extract_code (ms : List Msg) (a : String) :
    extract_code_from_messages ms a =
      (if ((ms.filter fun m => decide (m.source = some a)).flatMap
            (fun m => findCodeBlocks (m.content.getD ""))).isEmpty
       then "No code found"
       else String.intercalate "\n\n"
        ((ms.filter fun m => decide (m.source = some a)).flatMap
          (fun m => findCodeBlocks (m.content.getD "")))) :=
  extract_code_eq ms a

/-- Claim C6: for every finished transcript and every agent name,
`_extract_review_from_messages` returns the full textual content (not just
fenced regions) of every message whose source equals the agent name,
concatenated in transcript order and separated by a blank line — the
result is exactly the join over the filtered sublist, so no such message
is dropped or duplicated; if no message from that agent exists it returns
the sentinel value `"No review found"` rather than an empty string. -/
theorem claim_C6_extract_review (ms : List Msg) (a : String) :
    extract_review_from_messages ms a =
      (if ((ms.filter fun m => decide (m.source = some a)) = [])
       then "No review found"
       else String.intercalate "\n\n"
        ((ms.filter fun m => decide (m.source = some a)).map
          (fun m => m.content.getD ""))) :=
  extract_review_eq ms a

/-- Claim C8: both extraction helpers are side-effect-free and idempotent:
in their state-passing form the transcript after a run is the input
transcript unchanged, and running either helper a second time on the
transcript returned by the first run yields the identical output. -/
theorem claim_C8_idempotent (ms : List Msg) (a : String) :
    (extract_code_run ms a).2 = ms ∧
    (extract_review_run ms a).2 = ms ∧
    (extract_code_run (extract_code_run ms a).2 a).1 = (extract_code_run ms a).1 ∧
    (extract_review_run (extract_review_run ms a).2 a).1 = (extract_review_run ms a).1 :=
  ⟨rfl, rfl, rfl, rfl⟩

/-- Claim C9: the extraction helpers are total on message records with
missing keys: a record without a `source` key is skipped (removing it
anywhere in the transcript leaves both outputs unchanged), and a matching
record without a `content` key is treated as having empty content
(replacing the missing content by `""` leaves both outputs unchanged). -/
theorem claim_C9_missing_keys (pre post : List Msg) (a : String) (c : Option String) :
    (extract_code_from_messages (pre ++ ⟨none, c⟩ :: post) a
        = extract_code_from_messages (pre ++ post) a) ∧
    (extract_review_from_messages (pre ++ ⟨none, c⟩ :: post) a
        = extract_review_from_messages (pre ++ post) a) ∧
    (extract_code_from_messages (pre ++ ⟨some a, none⟩ :: post) a
        = extract_code_from_messages (pre ++ (⟨some a, some ""⟩ : Msg) :: post) a) ∧
    (extract_review_from_messages (pre ++ ⟨some a, none⟩ :: post) a
        = extract_review_from_messages (pre ++ (⟨some a, some ""⟩ : Msg) :: post) a) := by
  refine ⟨?_, ?_, ?_, ?_⟩ <;>
    simp [extract_code_eq, extract_review_eq, List.filter_append, List.filter_cons]

/-! ## Helper lemmas: the scheduler loop -/

/-- When the client always succeeds and never emits the sentinel, the loop
runs its full fuel: one message per remaining turn, no failure. -/
theorem runTurns_length_of_no_sentinel {ε : Type}
    (client : String → List Msg → Except ε String) (agents : List String) (sentinel : String)
    (h : ∀ name transcript, ∃ s, client name transcript = Except.ok s ∧
      strContains s sentinel = false)
    (fuel i : Nat) (transcript : List Msg) :
    (runTurns client agents sentinel fuel i transcript).1.length = fuel ∧
    (runTurns client agents sentinel fuel i transcript).2 = none := by
  induction fuel generalizing i transcript with
  | zero => simp [runTurns]
  | succ n ih =>
    obtain ⟨s, hs, hns⟩ := h (agentAt agents i) transcript
    have h2 := ih (i + 1) (transcript ++ [⟨some (agentAt agents i), some s⟩])
    simp [runTurns, hs, hns, h2.1, h2.2]

/-- A produced message that contains the sentinel is the last produced
message: the loop stops immediately after appending it. -/
theorem runTurns_stops_at_sentinel {ε : Type}
    (client : String → List Msg → Except ε String) (agents : List String) (sentinel : String)
    (fuel : Nat) :
    ∀ (i : Nat) (transcript : List Msg) (j : Nat),
      j < (runTurns client agents sentinel fuel i transcript).1.length →
      strContains
        ((((runTurns client agents sentinel fuel i transcript).1).getD j
          ⟨none, none⟩).content.getD "") sentinel = true →
      (runTurns client agents sentinel fuel i transcript).1.length = j + 1 := by
  induction fuel with
  | zero => intro i t j hj _; simp [runTurns] at hj
  | succ n ih =>
    intro i t j hj hsent
    cases hc : client (agentAt agents i) t with
    | error e => simp [runTurns, hc] at hj
    | ok s =>
      cases hx : strContains s sentinel with
      | true =>
        simp only [runTurns, hc] at hj ⊢
        rw [if_pos hx] at hj ⊢
        simp at hj ⊢
        omega
      | false =>
        simp only [runTurns, hc] at hj hsent ⊢
        rw [if_neg (by simp [hx])] at hj hsent ⊢
        cases j with
        | zero => simp [hx] at hsent
        | succ k =>
          simp only [List.getD_cons_succ] at hsent
          simp only [List.length_cons] at hj ⊢
          have hj2 : k < (runTurns client agents sentinel n (i + 1)
              (t ++ [⟨some (agentAt agents i), some s⟩])).1.length := by omega
          have hrec := ih (i + 1) (t ++ [⟨some (agentAt agents i), some s⟩]) k hj2 hsent
          omega

/-- Every produced message carries the name of the agent selected by
strict rotation at its turn. -/
theorem runTurns_source {ε : Type}
    (client : String → List Msg → Except ε String) (agents : List String) (sentinel : String)
    (fuel : Nat) :
    ∀ (i : Nat) (transcript : List Msg) (j : Nat),
      j < (runTurns client agents sentinel fuel i transcript).1.length →
      (((runTurns client agents sentinel fuel i transcript).1).getD j
          ⟨none, none⟩).source = some (agentAt agents (i + j)) := by
  induction fuel with
  | zero => intro i t j hj; simp [runTurns] at hj
  | succ n ih =>
    intro i t j hj
    cases hc : client (agentAt agents i) t with
    | error e => simp [runTurns, hc] at hj
    | ok s =>
      cases hx : strContains s sentinel with
      | true =>
        simp only [runTurns, hc] at hj ⊢
        rw [if_pos hx] at hj ⊢
        simp at hj
        simp [hj]
      | false =>
        simp only [runTurns, hc] at hj ⊢
        rw [if_neg (by simp [hx])] at hj ⊢
        cases j with
        | zero => simp
        | succ k =>
          simp only [List.getD_cons_succ]
          simp only [List.length_cons] at hj
          have hj2 : k < (runTurns client agents sentinel n (i + 1)
              (t ++ [⟨some (agentAt agents i), some s⟩])).1.length := by omega
          have hrec := ih (i + 1) (t ++ [⟨some (agentAt agents i), some s⟩]) k hj2
          rw [hrec]
          have : i + 1 + k = i + (k + 1) := by omega
          rw [this]

/-! ## Claim theorems: the conversation loop -/

/-- Claim C1: for every configured number of rounds `N` and every
completion client that always answers and whose outputs never contain the
sentinel string, the run produces exactly `N` messages beyond the seed
task message and then stops (with no failure). -/
theorem claim_C1_max_rounds {ε : Type} (client : String → List Msg → Except ε String)
    (N : Nat) (task : String)
    (h : ∀ name transcript, ∃ s, client name transcript = Except.ok s ∧
      strContains s SENTINEL = false) :
    (schedulerRun client N task).1.length = N ∧
    (schedulerRun client N task).2 = none :=
  runTurns_length_of_no_sentinel client workflowAgents SENTINEL h N 0 [seedMsg task]

/-- Claim C1 witness: a client that always answers `"working"` (which does
not contain the sentinel) makes a 3-round run produce exactly 3 messages. -/
theorem claim_C1_witness :
    (schedulerRun (fun _ _ => (Except.ok "working" : Except Unit String)) 3 "t").1.length = 3 ∧
    (schedulerRun (fun _ _ => (Except.ok "working" : Except Unit String)) 3 "t").2 = none :=
  claim_C1_max_rounds (fun _ _ => (Except.ok "working" : Except Unit String)) 3 "t"
    (fun _ _ => ⟨"working", rfl, by decide⟩)

/-- Claim C2: if the sentinel phrase `"WORKFLOW_COMPLETE"` occurs
(case-sensitively, as a substring, matching evaluated against the most
recently appended message only) in the message produced on turn `k`, with
`1 ≤ k ≤ maxRounds`, then the run stops at exactly `k` produced messages
and never produces a `(k+1)`-th message. -/
theorem claim_C2_sentinel_stops {ε : Type} (client : String → List Msg → Except ε String)
    (N : Nat) (task : String) (k : Nat)
    (h1 : 1 ≤ k) (_hkN : k ≤ N)
    (hk : k - 1 < (schedulerRun client N task).1.length)
    (hsent : strContains ((((schedulerRun client N task).1).getD (k - 1)
      ⟨none, none⟩).content.getD "") SENTINEL = true) :
    (schedulerRun client N task).1.length = k := by
  simp only [schedulerRun] at hk hsent ⊢
  have h2 := runTurns_stops_at_sentinel client workflowAgents SENTINEL N 0
    [seedMsg task] (k - 1) hk hsent
  omega

/-- Claim C2 witness: a client that emits the sentinel on the second turn
of a 5-round run: the run stops at exactly 2 produced messages. -/
theorem claim_C2_witness :
    (schedulerRun
      (fun _ t => (Except.ok (if t.length = 2 then SENTINEL else "work") : Except Unit String))
      5 "t").1.length = 2 :=
  claim_C2_sentinel_stops
    (fun _ t => (Except.ok (if t.length = 2 then SENTINEL else "work") : Except Unit String))
    5 "t" 2 (by decide) (by decide) (by decide) (by decide)

/-- Claim C3: the order of produced messages is strictly cyclic over the
configured agent list `[CodeWriter, CodeReviewer, CodeOptimizer]`: the
`j`-th produced message (0-based, seed excluded) has source
`agents[j mod len(agents)]`. -/
theorem claim_C3_round_robin {ε : Type} (client : String → List Msg → Except ε String)
    (N : Nat) (task : String) (j : Nat)
    (hj : j < (schedulerRun client N task).1.length) :
    (((schedulerRun client N task).1).getD j ⟨none, none⟩).source
      = some (workflowAgents.getD (j % workflowAgents.length) "") := by
  have h2 := runTurns_source client workflowAgents SENTINEL N 0 [seedMsg task] j hj
  simpa [agentAt] using h2

/-- Claim C3 witness: in a 4-round run with a constant client, the fourth
produced message comes from `CodeWriter` again (index 3 mod 3 = 0). -/
theorem claim_C3_witness :
    (((schedulerRun (fun _ _ => (Except.ok "x" : Except Unit String)) 4 "t").1).getD 3
        ⟨none, none⟩).source
      = some (workflowAgents.getD (3 % workflowAgents.length) "") :=
  claim_C3_round_robin (fun _ _ => (Except.ok "x" : Except Unit String)) 4 "t" 3 (by decide)

/-- Claim C7: when the underlying team run surfaces a failure of any type,
`CodeDevelopmentWorkflow.run` propagates that failure to its caller
unchanged, and no `WorkflowResult` value is constructed for that run. -/
theorem claim_C7_propagates_failure {ε : Type} (client : String → List Msg → Except ε String)
    (N : Nat) (task : String) (e : ε)
    (h : (schedulerRun client N task).2 = some e) :
    workflow_run client N task = Except.error e := by
  simp only [workflow_run, h]

/-- Claim C7 witness: a client that fails immediately with error `7` makes
a 3-round run return exactly that error and no result. -/
theorem claim_C7_witness :
    workflow_run (fun _ _ => (Except.error 7 : Except Nat String)) 3 "t" =
      Except.error 7 :=
  claim_C7_propagates_failure (fun _ _ => (Except.error 7 : Except Nat String)) 3 "t" 7
    (by decide)

/-! ## Claim theorems: the constructor -/

/-- Claim C5 counterexample: constructing the workflow with the
non-positive max-rounds value `0` (and an API key, so the only check the
constructor does perform passes) succeeds and stores `0` unchanged — no
`ConfigurationError` (nor any other error) is raised at construction. -/
theorem claim_C5_counterexample :
    workflow_init "gpt-4" 0 (some "sk-test") none =
      Except.ok ⟨"gpt-4", 0, some "sk-test", workflowAgents, 0, SENTINEL⟩ := by
  rfl

/-- Claim C5 (amended): the constructor performs no validation of
`max_rounds` — with any non-positive value and a non-empty `api_key`,
construction succeeds, storing the value unchanged into the workflow and
into `MaxMessageTermination`; no `ConfigurationError` exists in the code
(the agent list is hard-coded to three distinctly named agents, so an
empty list or duplicate names cannot arise), and the only construction-time
error is the `ValueError` for a missing API key. -/
theorem claim_C5_no_validation (model : String) (mr : Int) (api env : Option String)
    (_hmr : mr ≤ 0) (hapi : pyTruthy api = true) :
    workflow_init model mr api env =
      Except.ok ⟨model, mr, api, workflowAgents, mr, SENTINEL⟩ := by
  simp [workflow_init, hapi]

/-- Claim C5 witness: constructing with `max_rounds = -3` and an API key
succeeds. -/
theorem claim_C5_witness :
    workflow_init "gpt-4" (-3) (some "sk-test") none =
      Except.ok ⟨"gpt-4", -3, some "sk-test", workflowAgents, -3, SENTINEL⟩ :=
  claim_C5_no_validation "gpt-4" (-3) (some "sk-test") none (by decide) (by decide)

/-- Claim C10 counterexample: with `api_key = ""` — which is provided, not
`None` — and the environment variable unset, construction still raises
`ValueError`, because the constructor tests Python truthiness
(`if api_key:`), not `is None`; so "raises if and only if `api_key` is
`None` and the variable is unset" is false. -/
theorem claim_C10_counterexample :
    workflow_init "gpt-4" 10 (some "") none =
      Except.error (InitError.valueError apiKeyErrorMsg) := by
  rfl

/-- Claim C10 (amended): construction raises `ValueError` if and only if
the `api_key` parameter is `None` or empty and the `OPENAI_API_KEY`
environment variable is unset or empty; the check occurs before any agent
or termination condition is created (the error branch builds neither), and
when a non-empty `api_key` is provided it is written into the process
environment as `OPENAI_API_KEY`. -/
theorem claim_C10_api_key_check (model : String) (mr : Int) (api env : Option String) :
    (workflow_init model mr api env = Except.error (InitError.valueError apiKeyErrorMsg) ↔
      (pyTruthy api = false ∧ pyTruthy env = false)) ∧
    (pyTruthy api = true →
      workflow_init model mr api env =
        Except.ok ⟨model, mr, api, workflowAgents, mr, SENTINEL⟩) ∧
    (pyTruthy api = false → pyTruthy env = true →
      workflow_init model mr api env =
        Except.ok ⟨model, mr, env, workflowAgents, mr, SENTINEL⟩) := by
  unfold workflow_init
  cases hapi : pyTruthy api <;> cases henv : pyTruthy env <;> simp

/-- Claim C10 witness: a non-empty `api_key` yields a successful
construction whose environment value is that key. -/
theorem claim_C10_witness :
    workflow_init "m" 3 (some "k") none =
      Except.ok ⟨"m", 3, some "k", workflowAgents, 3, SENTINEL⟩ :=
  (claim_C10_api_key_check "m" 3 (some "k") none).2.1 (by decide)
